import Mathlib

/-!
Shallow embedding of the calibration / measurement core of
`retina_metadata_gui.py` (class `RetinaMetadataApp`).

The embedded state mirrors the mutable attributes of the app object that
the calibration and measurement handlers read and write:
`current_image_cv`, `calibration_px_per_mm`, `click_points`,
`measurement_lines`, `measure_mode`, `measure_start`.

External collaborators are modelled as explicit inputs:
* the decoded image (`cv2.imread` result) is an `Option Img` argument;
* the circle detector (`cv2.HoughCircles`) result is a `List HoughCircle`
  argument, the empty list standing for the detector returning `None`
  (the detector never returns an empty array);
* the `simpledialog.askfloat` answer is an `Option ℝ` argument
  (`none` = dialog cancelled).

Python floats are modelled as real numbers; Python float truthiness
(`if x:`) on an optional float is `x` being present and nonzero.
Pixel coordinates, already truncated to `int` by the handlers before any
of the embedded code runs, are integers.
-/

open Classical

/-- A pixel coordinate pair, as produced by the click handlers (`img_x, img_y`). -/
abbrev Point : Type := ℤ × ℤ

/-- The decoded image buffer: only its pixel dimensions matter to the core
(`self.current_image_cv.shape[1]` = width, `shape[0]` = height). -/
structure Img where
  width : ℕ
  height : ℕ
deriving DecidableEq

/-- One entry of `self.measurement_lines`: the tuple `(x1, y1, x2, y2, mm)`. -/
structure MeasurementLine where
  x1 : ℤ
  y1 : ℤ
  x2 : ℤ
  y2 : ℤ
  mm : ℝ

/-- The mutable session attributes of `RetinaMetadataApp` that the
calibration/measurement handlers touch. -/
structure AppState where
  current_image_cv : Option Img
  calibration_px_per_mm : Option ℝ
  click_points : List Point
  measurement_lines : List MeasurementLine
  measure_mode : Bool
  measure_start : Option Point

/-- `np.sqrt((p2[0]-p1[0])**2 + (p2[1]-p1[1])**2)`: the Euclidean pixel
distance between two clicked points. -/
noncomputable def pixelDistance (p1 p2 : Point) : ℝ :=
  Real.sqrt ((((p2.1 - p1.1) * (p2.1 - p1.1) + (p2.2 - p1.2) * (p2.2 - p1.2) : ℤ) : ℝ))

/-- The click-to-image-coordinate bounds test of `on_canvas_click` line 214,
stated positively: the mapped point lies in `[0, width) × [0, height)`. -/
def inBounds (img : Img) (p : Point) : Prop :=
  0 ≤ p.1 ∧ 0 ≤ p.2 ∧ p.1 < (img.width : ℤ) ∧ p.2 < (img.height : ℤ)

instance (img : Img) (p : Point) : Decidable (inBounds img p) := by
  unfold inBounds; infer_instance

/-- `DEVICE_PROFILE["assumed_disc_diameter_mm"]`. -/
noncomputable def assumed_disc_diameter_mm : ℝ := 1.5

/-- `clear_measurements` (lines 325-330): empties `measurement_lines` and
clears the pending start.  (Canvas redraw and status text are presentation
only.) -/
def clear_measurements (s : AppState) : AppState :=
  { s with measurement_lines := [], measure_start := none }

/-- `start_manual_calibration` (lines 286-289): resets the calibration click
buffer. -/
def start_manual_calibration (s : AppState) : AppState :=
  { s with click_points := [] }

/-- `toggle_measure_mode` (lines 315-323): flips `measure_mode`; when the
mode turns off, the pending start is discarded. -/
def toggle_measure_mode (s : AppState) : AppState :=
  if s.measure_mode then { s with measure_mode := false, measure_start := none }
  else { s with measure_mode := true }

/-- `on_image_select` (lines 143-164) after the listbox lookup.  The
`cv2.imread` result is the `decoded` argument and is assigned to
`self.current_image_cv` BEFORE the `None` check (line 150), so a failed
decode nulls the active image buffer, shows the error box and returns with
every other session field untouched.  On success the image buffer is
replaced, `clear_measurements` runs, and the calibration is reset to
`None`.  Note that `click_points` is NOT cleared on image change. -/
def on_image_select (s : AppState) (decoded : Option Img) : AppState :=
  match decoded with
  | none => { s with current_image_cv := none }
  | some img =>
      let s1 := { s with current_image_cv := some img }
      let s2 := clear_measurements s1
      { s2 with calibration_px_per_mm := none }

/-- `complete_manual_calibration` (lines 291-313).  The `askfloat` answer is
`real_distance` (`none` = cancelled).  The Python guard
`if real_distance and real_distance > 0` is float truthiness followed by the
comparison: present, nonzero and positive.  Both branches end with
`self.click_points = []`; the early `len != 2` return leaves the buffer
alone. -/
noncomputable def complete_manual_calibration (s : AppState) (real_distance : Option ℝ) :
    AppState :=
  match s.click_points with
  | [p1, p2] =>
      let pixel_distance := pixelDistance p1 p2
      match real_distance with
      | some d =>
          if d ≠ 0 ∧ 0 < d then
            { s with calibration_px_per_mm := some (pixel_distance / d), click_points := [] }
          else
            { s with click_points := [] }
      | none => { s with click_points := [] }
  | _ => s

/-- `on_canvas_click` (lines 204-240), taking the already-mapped image
coordinate `p = (img_x, img_y)`.  The `hasattr(self, 'image_offsets')`
guard holds exactly when an image has been displayed, i.e. when
`current_image_cv` is set (the buffer is only ever assigned together with a
`display_image` call and never reset to `None`).  `real_distance` is the
dialog answer consumed if this click completes a manual calibration. -/
noncomputable def on_canvas_click (s : AppState) (p : Point) (real_distance : Option ℝ) :
    AppState :=
  match s.current_image_cv with
  | none => s
  | some img =>
    if p.1 < 0 ∨ p.2 < 0 ∨ (img.width : ℤ) ≤ p.1 ∨ (img.height : ℤ) ≤ p.2 then s
    else if s.measure_mode then
      match s.measure_start with
      | none => { s with measure_start := some p }
      | some st =>
        match s.calibration_px_per_mm with
        | some ppm =>
          if ppm ≠ 0 then
            { s with
              measurement_lines := s.measurement_lines ++
                [⟨st.1, st.2, p.1, p.2, pixelDistance st p / ppm⟩],
              measure_start := none }
          else { s with measure_start := none }
        | none => { s with measure_start := none }
    else
      let s1 := { s with click_points := s.click_points ++ [p] }
      if s1.click_points.length = 2 then complete_manual_calibration s1 real_distance
      else s1

/-- One circle reported by `cv2.HoughCircles` after
`np.round(...).astype("int")`: a centre and a radius in pixels. -/
structure HoughCircle where
  x : ℤ
  y : ℤ
  r : ℤ

/-- `auto_calibrate` (lines 251-284).  The `cv2.HoughCircles` output is the
`circles` argument; the empty list models the detector returning `None`.
With no image a warning box is shown and nothing happens; with no detected
circle the "Calibration Failed" warning is shown and nothing happens;
otherwise the first reported circle `circles[0]` fixes the scale
`(2 * r) / assumed_disc_diameter_mm`.  The drawn overlay is presentation
only. -/
noncomputable def auto_calibrate (s : AppState) (circles : List HoughCircle) : AppState :=
  match s.current_image_cv with
  | none => s
  | some _ =>
    match circles with
    | [] => s
    | c :: _ =>
        { s with calibration_px_per_mm := some ((2 * (c.r : ℝ)) / assumed_disc_diameter_mm) }

/-- The label values painted by `redraw_measurements` (lines 192-202): each
stored line is annotated with the text `f"{mm:.2f}mm"` taken from the
stored tuple itself; the scale-dependent part of the redraw is only the
canvas position of the line, never the millimetre value. -/
def redraw_measurements_labels (lines : List MeasurementLine) : List ℝ :=
  lines.map (fun line => line.mm)

/-- One user-level operation on the session: each constructor names the
handler it dispatches to, carrying that handler's external inputs. -/
inductive Op where
  | click (p : Point) (real_distance : Option ℝ)
  | selectImage (decoded : Option Img)
  | autoCal (circles : List HoughCircle)
  | startManualCalibration
  | toggleMeasureMode
  | clearMeasurements

/-- Dispatch of one operation to the corresponding handler. -/
noncomputable def step (s : AppState) : Op → AppState
  | .click p rd => on_canvas_click s p rd
  | .selectImage d => on_image_select s d
  | .autoCal cs => auto_calibrate s cs
  | .startManualCalibration => start_manual_calibration s
  | .toggleMeasureMode => toggle_measure_mode s
  | .clearMeasurements => clear_measurements s

/-- A completed two-click measurement gesture: the start-point click
followed by the end-point click (no calibration dialog is involved in
measure mode, so the dialog argument is irrelevant and passed as `none`). -/
noncomputable def run_gesture (s : AppState) (g : Point × Point) : AppState :=
  on_canvas_click (on_canvas_click s g.1 none) g.2 none

/-- A sequence of completed measurement gestures, run left to right. -/
noncomputable def run_gestures (s : AppState) (gs : List (Point × Point)) : AppState :=
  gs.foldl run_gesture s

/-- The measurement entry that a completed gesture `g` produces under the
scale `v` (the appended tuple of `on_canvas_click` lines 225-229). -/
noncomputable def gestureMeasurement (v : ℝ) (g : Point × Point) : MeasurementLine :=
  ⟨g.1.1, g.1.2, g.2.1, g.2.2, pixelDistance g.1 g.2 / v⟩

/-- Every point recorded in the measurement ledger or as the pending
measurement start lies within the bounds of the currently active image. -/
def MeasPointsInBounds (s : AppState) : Prop :=
  ∀ img, s.current_image_cv = some img →
    (∀ m ∈ s.measurement_lines, inBounds img (m.x1, m.y1) ∧ inBounds img (m.x2, m.y2)) ∧
    (∀ q, s.measure_start = some q → inBounds img q)

/-! ## Basic lemmas about the embedded handlers -/

theorem pixelDistance_nonneg (p1 p2 : Point) : 0 ≤ pixelDistance p1 p2 :=
  Real.sqrt_nonneg _

theorem pixelDistance_pos (p1 p2 : Point) (h : p1 ≠ p2) : 0 < pixelDistance p1 p2 := by
  unfold pixelDistance
  apply Real.sqrt_pos.mpr
  have hne : p1.1 ≠ p2.1 ∨ p1.2 ≠ p2.2 := by
    by_contra hc
    push_neg at hc
    exact h (Prod.ext hc.1 hc.2)
  have h1 : (0:ℤ) < (p2.1 - p1.1) * (p2.1 - p1.1) + (p2.2 - p1.2) * (p2.2 - p1.2) := by
    rcases hne with hx | hy
    · have := mul_self_pos.mpr (sub_ne_zero.mpr (Ne.symm hx))
      have := mul_self_nonneg (p2.2 - p1.2)
      linarith
    · have := mul_self_pos.mpr (sub_ne_zero.mpr (Ne.symm hy))
      have := mul_self_nonneg (p2.1 - p1.1)
      linarith
  exact_mod_cast h1

theorem pixelDistance_self (p : Point) : pixelDistance p p = 0 := by
  simp [pixelDistance]

/-- `complete_manual_calibration` either sets the calibration and empties the
click buffer, or leaves the state untouched; no other field ever changes. -/
theorem complete_manual_calibration_cases (s : AppState) (rd : Option ℝ) :
    (∃ c, complete_manual_calibration s rd =
        { s with calibration_px_per_mm := c, click_points := [] }) ∨
    complete_manual_calibration s rd = s := by
  obtain ⟨ici, cal, cp, ml, mo, ms⟩ := s
  rcases cp with _ | ⟨p1, _ | ⟨p2, _ | ⟨p3, t⟩⟩⟩
  · right; rfl
  · right; rfl
  · rcases rd with _ | d
    · exact Or.inl ⟨cal, rfl⟩
    · by_cases hd : d ≠ 0 ∧ 0 < d
      · refine Or.inl ⟨some (pixelDistance p1 p2 / d), ?_⟩
        simp [complete_manual_calibration, hd]
      · refine Or.inl ⟨cal, ?_⟩
        simp [complete_manual_calibration, hd]
  · right; rfl

theorem complete_manual_calibration_preserves (s : AppState) (rd : Option ℝ) :
    (complete_manual_calibration s rd).current_image_cv = s.current_image_cv ∧
    (complete_manual_calibration s rd).measurement_lines = s.measurement_lines ∧
    (complete_manual_calibration s rd).measure_start = s.measure_start ∧
    (complete_manual_calibration s rd).measure_mode = s.measure_mode := by
  rcases complete_manual_calibration_cases s rd with ⟨c, h⟩ | h <;> rw [h] <;>
    exact ⟨rfl, rfl, rfl, rfl⟩

theorem auto_calibrate_cases (s : AppState) (cs : List HoughCircle) :
    (∃ c, auto_calibrate s cs = { s with calibration_px_per_mm := some c }) ∨
    auto_calibrate s cs = s := by
  obtain ⟨ici, cal, cp, ml, mo, ms⟩ := s
  rcases ici with _ | img
  · right; rfl
  · rcases cs with _ | ⟨c, t⟩
    · right; rfl
    · exact Or.inl ⟨_, rfl⟩

theorem auto_calibrate_preserves (s : AppState) (cs : List HoughCircle) :
    (auto_calibrate s cs).current_image_cv = s.current_image_cv ∧
    (auto_calibrate s cs).measurement_lines = s.measurement_lines ∧
    (auto_calibrate s cs).measure_start = s.measure_start ∧
    (auto_calibrate s cs).measure_mode = s.measure_mode ∧
    (auto_calibrate s cs).click_points = s.click_points := by
  rcases auto_calibrate_cases s cs with ⟨c, h⟩ | h <;> rw [h] <;>
    exact ⟨rfl, rfl, rfl, rfl, rfl⟩

theorem auto_calibrate_nil (s : AppState) : auto_calibrate s [] = s := by
  obtain ⟨ici, cal, cp, ml, mo, ms⟩ := s
  rcases ici with _ | img <;> rfl

theorem on_canvas_click_no_image (s : AppState) (p : Point) (rd : Option ℝ)
    (h : s.current_image_cv = none) : on_canvas_click s p rd = s := by
  obtain ⟨ici, cal, cp, ml, mo, ms⟩ := s
  dsimp only at h
  subst h
  rfl

theorem on_canvas_click_out_of_bounds (s : AppState) (img : Img) (p : Point) (rd : Option ℝ)
    (himg : s.current_image_cv = some img) (hp : ¬ inBounds img p) :
    on_canvas_click s p rd = s := by
  obtain ⟨ici, cal, cp, ml, mo, ms⟩ := s
  dsimp only at himg
  subst himg
  have hcond : p.1 < 0 ∨ p.2 < 0 ∨ (img.width : ℤ) ≤ p.1 ∨ (img.height : ℤ) ≤ p.2 := by
    unfold inBounds at hp
    omega
  simp [on_canvas_click, hcond]

theorem on_canvas_click_measure_first (s : AppState) (img : Img) (p : Point) (rd : Option ℝ)
    (himg : s.current_image_cv = some img) (hp : inBounds img p)
    (hmode : s.measure_mode = true) (hstart : s.measure_start = none) :
    on_canvas_click s p rd = { s with measure_start := some p } := by
  obtain ⟨ici, cal, cp, ml, mo, ms⟩ := s
  dsimp only at himg hmode hstart
  subst himg; subst hmode; subst hstart
  have hcond : ¬ (p.1 < 0 ∨ p.2 < 0 ∨ (img.width : ℤ) ≤ p.1 ∨ (img.height : ℤ) ≤ p.2) := by
    unfold inBounds at hp
    omega
  simp [on_canvas_click, hcond]

theorem on_canvas_click_measure_end (s : AppState) (img : Img) (p st : Point) (ppm : ℝ)
    (rd : Option ℝ)
    (himg : s.current_image_cv = some img) (hp : inBounds img p)
    (hmode : s.measure_mode = true) (hstart : s.measure_start = some st)
    (hcal : s.calibration_px_per_mm = some ppm) (hppm : ppm ≠ 0) :
    on_canvas_click s p rd =
      { s with
        measurement_lines := s.measurement_lines ++
          [⟨st.1, st.2, p.1, p.2, pixelDistance st p / ppm⟩],
        measure_start := none } := by
  obtain ⟨ici, cal, cp, ml, mo, ms⟩ := s
  dsimp only at himg hmode hstart hcal
  subst himg; subst hmode; subst hstart; subst hcal
  have hcond : ¬ (p.1 < 0 ∨ p.2 < 0 ∨ (img.width : ℤ) ≤ p.1 ∨ (img.height : ℤ) ≤ p.2) := by
    unfold inBounds at hp
    omega
  simp [on_canvas_click, hcond, hppm]

theorem on_canvas_click_measure_end_uncal (s : AppState) (img : Img) (p st : Point)
    (rd : Option ℝ)
    (himg : s.current_image_cv = some img) (hp : inBounds img p)
    (hmode : s.measure_mode = true) (hstart : s.measure_start = some st)
    (hcal : s.calibration_px_per_mm = none ∨ s.calibration_px_per_mm = some 0) :
    on_canvas_click s p rd = { s with measure_start := none } := by
  obtain ⟨ici, cal, cp, ml, mo, ms⟩ := s
  dsimp only at himg hmode hstart hcal
  subst himg; subst hmode; subst hstart
  have hcond : ¬ (p.1 < 0 ∨ p.2 < 0 ∨ (img.width : ℤ) ≤ p.1 ∨ (img.height : ℤ) ≤ p.2) := by
    unfold inBounds at hp
    omega
  rcases hcal with h | h <;> subst h <;> simp [on_canvas_click, hcond]

theorem on_canvas_click_calib_mode (s : AppState) (img : Img) (p : Point) (rd : Option ℝ)
    (himg : s.current_image_cv = some img) (hp : inBounds img p)
    (hmode : s.measure_mode = false) :
    on_canvas_click s p rd =
      (if (s.click_points ++ [p]).length = 2 then
        complete_manual_calibration { s with click_points := s.click_points ++ [p] } rd
      else { s with click_points := s.click_points ++ [p] }) := by
  obtain ⟨ici, cal, cp, ml, mo, ms⟩ := s
  dsimp only at himg hmode
  subst himg; subst hmode
  have hcond : ¬ (p.1 < 0 ∨ p.2 < 0 ∨ (img.width : ℤ) ≤ p.1 ∨ (img.height : ℤ) ≤ p.2) := by
    unfold inBounds at hp
    omega
  simp [on_canvas_click, hcond]

theorem pixelDistance_example : pixelDistance ((0:ℤ), (0:ℤ)) ((30:ℤ), (40:ℤ)) = 50 := by
  have h : ((((30:ℤ) - 0) * ((30:ℤ) - 0) + (((40:ℤ) - 0) * ((40:ℤ) - 0)) : ℤ) : ℝ)
      = 50 ^ 2 := by norm_num
  unfold pixelDistance
  rw [h, Real.sqrt_sq (by norm_num)]

/-- On any failure input (dialog cancelled or non-positive distance) the
stored calibration survives `complete_manual_calibration` unchanged. -/
theorem cmc_failure_calibration (s : AppState) (rd : Option ℝ)
    (h : rd = none ∨ ∃ d, rd = some d ∧ d ≤ 0) :
    (complete_manual_calibration s rd).calibration_px_per_mm =
      s.calibration_px_per_mm := by
  obtain ⟨ici, cal, cp, ml, mo, ms⟩ := s
  rcases h with h | ⟨d, hd, hle⟩
  · subst h
    rcases cp with _ | ⟨p1, _ | ⟨p2, _ | ⟨p3, t⟩⟩⟩ <;> rfl
  · subst hd
    have hcond : ¬ (d ≠ 0 ∧ 0 < d) := by
      rintro ⟨h1, h2⟩
      linarith
    rcases cp with _ | ⟨p1, _ | ⟨p2, _ | ⟨p3, t⟩⟩⟩
    · rfl
    · rfl
    · simp [complete_manual_calibration, hcond]
    · rfl

/-- On any success input (a positive distance) `complete_manual_calibration`
stores `pixel_distance / d`. -/
theorem cmc_success_calibration (s : AppState) (p1 p2 : Point) (d : ℝ)
    (hcp : s.click_points = [p1, p2]) (hd : 0 < d) :
    (complete_manual_calibration s (some d)).calibration_px_per_mm =
      some (pixelDistance p1 p2 / d) := by
  obtain ⟨ici, cal, cp, ml, mo, ms⟩ := s
  dsimp only at hcp
  subst hcp
  have hcond : d ≠ 0 ∧ 0 < d := ⟨ne_of_gt hd, hd⟩
  simp [complete_manual_calibration, hcond]

/-- The bounds invariant only reads the image, ledger and pending start, so
it transfers along any operation that preserves those three fields. -/
theorem MeasPointsInBounds_of_fields (s t : AppState)
    (himg : t.current_image_cv = s.current_image_cv)
    (hml : t.measurement_lines = s.measurement_lines)
    (hms : t.measure_start = s.measure_start)
    (h : MeasPointsInBounds s) : MeasPointsInBounds t := by
  intro img hi
  rw [himg] at hi
  obtain ⟨h1, h2⟩ := h img hi
  rw [hml, hms]
  exact ⟨h1, h2⟩

/-- C1: for every pair of distinct in-bounds points and every positive real
distance, manual calibration succeeds, stores the Euclidean pixel distance
divided by the entered distance as the scale, and that scale is strictly
positive. -/
theorem C1_manual_calibration_sets_scale
    (s : AppState) (img : Img) (p1 p2 : Point) (d : ℝ)
    (himg : s.current_image_cv = some img)
    (hb1 : inBounds img p1) (hb2 : inBounds img p2)
    (hne : p1 ≠ p2) (hd : 0 < d)
    (hcp : s.click_points = [p1, p2]) :
    (complete_manual_calibration s (some d)).calibration_px_per_mm =
      some (pixelDistance p1 p2 / d) ∧
    0 < pixelDistance p1 p2 / d :=
  ⟨cmc_success_calibration s p1 p2 d hcp hd, div_pos (pixelDistance_pos p1 p2 hne) hd⟩

theorem C1_witness :
    (complete_manual_calibration
        ⟨some ⟨10, 10⟩, none, [((0:ℤ), (0:ℤ)), ((3:ℤ), (4:ℤ))], [], false, none⟩
        (some 1)).calibration_px_per_mm =
      some (pixelDistance ((0:ℤ), (0:ℤ)) ((3:ℤ), (4:ℤ)) / 1) ∧
    0 < pixelDistance ((0:ℤ), (0:ℤ)) ((3:ℤ), (4:ℤ)) / 1 :=
  C1_manual_calibration_sets_scale
    ⟨some ⟨10, 10⟩, none, [((0:ℤ), (0:ℤ)), ((3:ℤ), (4:ℤ))], [], false, none⟩
    ⟨10, 10⟩ ((0:ℤ), (0:ℤ)) ((3:ℤ), (4:ℤ)) 1
    rfl (by decide) (by decide) (by decide) (by norm_num) rfl

/-- C2 counterexample: with both clicked points equal to `(1, 1)` and entered
distance `1 > 0`, `complete_manual_calibration` does not reject the input:
it overwrites the previously stored calibration `some 7` with the zero
scale `some 0`. -/
theorem C2_counterexample :
    (complete_manual_calibration
        ⟨some ⟨5, 5⟩, some 7, [((1:ℤ), (1:ℤ)), ((1:ℤ), (1:ℤ))], [], false, none⟩
        (some 1)).calibration_px_per_mm = some 0 ∧
    (some (7:ℝ) : Option ℝ) ≠ some 0 := by
  constructor
  · have hcond : (1:ℝ) ≠ 0 ∧ (0:ℝ) < 1 := by norm_num
    simp [complete_manual_calibration, hcond, pixelDistance_self]
  · simp

/-- C2 (amended): manual calibration leaves the stored calibration unchanged
exactly when the distance dialog is cancelled or the entered distance is
non-positive; any positive distance is accepted, even when the two clicked
points coincide, in which case the stored scale becomes `0` (downstream
float-truthiness checks then treat the session as uncalibrated). -/
theorem C2_amended_manual_calibration_failure
    (s : AppState) (p1 p2 : Point) (hcp : s.click_points = [p1, p2]) :
    (complete_manual_calibration s none).calibration_px_per_mm =
      s.calibration_px_per_mm ∧
    (∀ d : ℝ, d ≤ 0 →
      (complete_manual_calibration s (some d)).calibration_px_per_mm =
        s.calibration_px_per_mm) ∧
    (∀ d : ℝ, 0 < d →
      (complete_manual_calibration s (some d)).calibration_px_per_mm =
        some (pixelDistance p1 p2 / d)) ∧
    (∀ d : ℝ, 0 < d → p1 = p2 →
      (complete_manual_calibration s (some d)).calibration_px_per_mm = some 0) := by
  refine ⟨cmc_failure_calibration s none (Or.inl rfl), ?_, ?_, ?_⟩
  · intro d hd
    exact cmc_failure_calibration s (some d) (Or.inr ⟨d, rfl, hd⟩)
  · intro d hd
    exact cmc_success_calibration s p1 p2 d hcp hd
  · intro d hd heq
    rw [cmc_success_calibration s p1 p2 d hcp hd, heq, pixelDistance_self, zero_div]

theorem C2_amended_witness :
    (complete_manual_calibration
        ⟨some ⟨5, 5⟩, some 7, [((1:ℤ), (1:ℤ)), ((3:ℤ), (4:ℤ))], [], false, none⟩
        none).calibration_px_per_mm = some 7 ∧
    (complete_manual_calibration
        ⟨some ⟨5, 5⟩, some 7, [((1:ℤ), (1:ℤ)), ((3:ℤ), (4:ℤ))], [], false, none⟩
        (some (-1))).calibration_px_per_mm = some 7 ∧
    (complete_manual_calibration
        ⟨some ⟨5, 5⟩, some 7, [((1:ℤ), (1:ℤ)), ((3:ℤ), (4:ℤ))], [], false, none⟩
        (some 2)).calibration_px_per_mm =
      some (pixelDistance ((1:ℤ), (1:ℤ)) ((3:ℤ), (4:ℤ)) / 2) ∧
    (complete_manual_calibration
        ⟨some ⟨5, 5⟩, some 7, [((1:ℤ), (1:ℤ)), ((1:ℤ), (1:ℤ))], [], false, none⟩
        (some 2)).calibration_px_per_mm = some 0 :=
  ⟨(C2_amended_manual_calibration_failure _ _ _ rfl).1,
   (C2_amended_manual_calibration_failure _ ((1:ℤ), (1:ℤ)) ((3:ℤ), (4:ℤ)) rfl).2.1
      (-1) (by norm_num),
   (C2_amended_manual_calibration_failure _ ((1:ℤ), (1:ℤ)) ((3:ℤ), (4:ℤ)) rfl).2.2.1
      2 (by norm_num),
   (C2_amended_manual_calibration_failure _ ((1:ℤ), (1:ℤ)) ((1:ℤ), (1:ℤ)) rfl).2.2.2
      2 (by norm_num) rfl⟩

/-- C3 counterexample: two failure paths mutate the enumerated session
state.  Ending a measurement with no calibration set (the
CalibrationRequired failure) clears the pending start point instead of
leaving it as it was before the failing call, and a failed image decode
nulls the active image buffer (imread's result is assigned before the
`None` check). -/
theorem C3_counterexample :
    (on_canvas_click ⟨some ⟨10, 10⟩, none, [], [], true, some ((0:ℤ), (0:ℤ))⟩
        ((1:ℤ), (1:ℤ)) none).measure_start = none ∧
    (⟨some ⟨10, 10⟩, none, [], [], true, some ((0:ℤ), (0:ℤ))⟩ : AppState).measure_start =
      some ((0:ℤ), (0:ℤ)) ∧
    (on_image_select ⟨some ⟨10, 10⟩, some 4, [], [], false, none⟩
        none).current_image_cv = none ∧
    (⟨some ⟨10, 10⟩, some 4, [], [], false, none⟩ : AppState).current_image_cv =
      some ⟨10, 10⟩ := by
  refine ⟨?_, rfl, rfl, rfl⟩
  rw [on_canvas_click_measure_end_uncal
    ⟨some ⟨10, 10⟩, none, [], [], true, some ((0:ℤ), (0:ℤ))⟩ ⟨10, 10⟩
    ((1:ℤ), (1:ℤ)) ((0:ℤ), (0:ℤ)) none rfl (by decide) rfl rfl (Or.inl rfl)]

/-- C3 (amended): every failure path (NotFound auto-calibration, InvalidInput
manual calibration, CalibrationRequired end-measurement, failed image
decode) leaves the calibration scale and the measurement ledger exactly as
they were; the active image is also preserved by all of them except the
failed decode, which nulls the image buffer (imread's result is assigned
before the `None` check), and the pending start point is also preserved by
all of them except the CalibrationRequired end-measurement, which clears
it. -/
theorem C3_amended_failure_paths_preserve_state :
    (∀ s : AppState, auto_calibrate s [] = s) ∧
    (∀ s : AppState,
      (on_image_select s none).calibration_px_per_mm = s.calibration_px_per_mm ∧
      (on_image_select s none).measurement_lines = s.measurement_lines ∧
      (on_image_select s none).measure_start = s.measure_start ∧
      (on_image_select s none).click_points = s.click_points ∧
      (on_image_select s none).current_image_cv = none) ∧
    (∀ (s : AppState) (p1 p2 : Point) (rd : Option ℝ),
      s.click_points = [p1, p2] →
      (rd = none ∨ ∃ d, rd = some d ∧ d ≤ 0) →
      (complete_manual_calibration s rd).current_image_cv = s.current_image_cv ∧
      (complete_manual_calibration s rd).calibration_px_per_mm =
        s.calibration_px_per_mm ∧
      (complete_manual_calibration s rd).measurement_lines = s.measurement_lines ∧
      (complete_manual_calibration s rd).measure_start = s.measure_start) ∧
    (∀ (s : AppState) (img : Img) (p st : Point) (rd : Option ℝ),
      s.current_image_cv = some img → inBounds img p →
      s.measure_mode = true → s.measure_start = some st →
      s.calibration_px_per_mm = none →
      (on_canvas_click s p rd).current_image_cv = s.current_image_cv ∧
      (on_canvas_click s p rd).calibration_px_per_mm = s.calibration_px_per_mm ∧
      (on_canvas_click s p rd).measurement_lines = s.measurement_lines ∧
      (on_canvas_click s p rd).measure_start = none) := by
  refine ⟨auto_calibrate_nil, fun s => ⟨rfl, rfl, rfl, rfl, rfl⟩, ?_, ?_⟩
  · intro s p1 p2 rd hcp hfail
    obtain ⟨h1, h2, h3, _⟩ := complete_manual_calibration_preserves s rd
    exact ⟨h1, cmc_failure_calibration s rd hfail, h2, h3⟩
  · intro s img p st rd himg hb hmode hstart hcal
    rw [on_canvas_click_measure_end_uncal s img p st rd himg hb hmode hstart (Or.inl hcal)]
    exact ⟨rfl, rfl, rfl, rfl⟩

theorem C3_amended_witness :
    auto_calibrate ⟨some ⟨10, 10⟩, some 4, [], [], false, none⟩ [] =
      ⟨some ⟨10, 10⟩, some 4, [], [], false, none⟩ ∧
    (on_image_select ⟨some ⟨10, 10⟩, some 4, [], [], false, none⟩
        none).calibration_px_per_mm = some 4 ∧
    (on_image_select ⟨some ⟨10, 10⟩, some 4, [], [], false, none⟩
        none).measurement_lines = [] ∧
    (complete_manual_calibration
        ⟨some ⟨10, 10⟩, some 4, [((0:ℤ), (0:ℤ)), ((3:ℤ), (4:ℤ))], [], false, none⟩
        (some 0)).calibration_px_per_mm = some 4 ∧
    (on_canvas_click ⟨some ⟨10, 10⟩, none, [], [], true, some ((0:ℤ), (0:ℤ))⟩
        ((2:ℤ), (2:ℤ)) none).measurement_lines = [] :=
  ⟨C3_amended_failure_paths_preserve_state.1 _,
   (C3_amended_failure_paths_preserve_state.2.1 _).1,
   (C3_amended_failure_paths_preserve_state.2.1
      (⟨some ⟨10, 10⟩, some 4, [], [], false, none⟩ : AppState)).2.1,
   (C3_amended_failure_paths_preserve_state.2.2.1 _ ((0:ℤ), (0:ℤ)) ((3:ℤ), (4:ℤ))
      (some 0) rfl (Or.inr ⟨0, rfl, le_refl 0⟩)).2.1,
   (C3_amended_failure_paths_preserve_state.2.2.2 _ ⟨10, 10⟩ ((2:ℤ), (2:ℤ))
      ((0:ℤ), (0:ℤ)) none rfl (by decide) rfl rfl rfl).2.2.1⟩

/-- C4: ending a measurement while no calibration is set fails (the
"Please calibrate first!" warning) and appends nothing to the measurement
ledger. -/
theorem C4_end_measurement_requires_calibration
    (s : AppState) (img : Img) (p st : Point) (rd : Option ℝ)
    (himg : s.current_image_cv = some img) (hp : inBounds img p)
    (hmode : s.measure_mode = true) (hstart : s.measure_start = some st)
    (hcal : s.calibration_px_per_mm = none) :
    (on_canvas_click s p rd).measurement_lines = s.measurement_lines := by
  rw [on_canvas_click_measure_end_uncal s img p st rd himg hp hmode hstart (Or.inl hcal)]

theorem C4_witness :
    (on_canvas_click ⟨some ⟨10, 10⟩, none, [], [], true, some ((0:ℤ), (0:ℤ))⟩
        ((3:ℤ), (4:ℤ)) none).measurement_lines = [] :=
  C4_end_measurement_requires_calibration
    ⟨some ⟨10, 10⟩, none, [], [], true, some ((0:ℤ), (0:ℤ))⟩ ⟨10, 10⟩
    ((3:ℤ), (4:ℤ)) ((0:ℤ), (0:ℤ)) none rfl (by decide) rfl rfl rfl

/-- C5: loading a new image always resets the calibration to uncalibrated and
empties the measurement ledger (and the pending start), whatever the prior
state was. -/
theorem C5_load_image_resets (s : AppState) (img : Img) :
    (on_image_select s (some img)).calibration_px_per_mm = none ∧
    (on_image_select s (some img)).measurement_lines = [] ∧
    (on_image_select s (some img)).measure_start = none ∧
    (on_image_select s (some img)).current_image_cv = some img :=
  ⟨rfl, rfl, rfl, rfl⟩

/-- C6: automatic calibration uses the first detector-reported circle and
stores `(2 * r) / assumed_real_diameter_mm` with the configured constant
`1.5`; with no detected candidate the state is left untouched (no scale is
set). -/
theorem C6_auto_calibrate_first_candidate
    (s : AppState) (img : Img) (himg : s.current_image_cv = some img) :
    (∀ (c : HoughCircle) (cs : List HoughCircle),
      (auto_calibrate s (c :: cs)).calibration_px_per_mm =
        some ((2 * (c.r : ℝ)) / assumed_disc_diameter_mm)) ∧
    assumed_disc_diameter_mm = 1.5 ∧
    auto_calibrate s [] = s := by
  refine ⟨?_, rfl, auto_calibrate_nil s⟩
  intro c cs
  obtain ⟨ici, cal, cp, ml, mo, ms⟩ := s
  dsimp only at himg
  subst himg
  rfl

theorem C6_witness :
    (auto_calibrate ⟨some ⟨10, 10⟩, none, [], [], false, none⟩
        [⟨5, 5, 60⟩, ⟨1, 1, 30⟩]).calibration_px_per_mm =
      some ((2 * ((60:ℤ) : ℝ)) / assumed_disc_diameter_mm) ∧
    assumed_disc_diameter_mm = 1.5 ∧
    auto_calibrate ⟨some ⟨10, 10⟩, none, [], [], false, none⟩ [] =
      ⟨some ⟨10, 10⟩, none, [], [], false, none⟩ :=
  ⟨(C6_auto_calibrate_first_candidate
      ⟨some ⟨10, 10⟩, none, [], [], false, none⟩ ⟨10, 10⟩ rfl).1 ⟨5, 5, 60⟩ [⟨1, 1, 30⟩],
   (C6_auto_calibrate_first_candidate
      ⟨some ⟨10, 10⟩, none, [], [], false, none⟩ ⟨10, 10⟩ rfl).2.1,
   (C6_auto_calibrate_first_candidate
      ⟨some ⟨10, 10⟩, none, [], [], false, none⟩ ⟨10, 10⟩ rfl).2.2⟩

/-- C7: with a (nonzero) calibration set, the second click of a measurement
gesture appends the measurement whose length is the Euclidean pixel
distance from the pending start divided by `pixels_per_mm`, and clears the
pending start. -/
theorem C7_end_measurement_computes_length
    (s : AppState) (img : Img) (p st : Point) (ppm : ℝ) (rd : Option ℝ)
    (himg : s.current_image_cv = some img) (hp : inBounds img p)
    (hmode : s.measure_mode = true) (hstart : s.measure_start = some st)
    (hcal : s.calibration_px_per_mm = some ppm) (hppm : ppm ≠ 0) :
    (on_canvas_click s p rd).measurement_lines =
      s.measurement_lines ++ [⟨st.1, st.2, p.1, p.2, pixelDistance st p / ppm⟩] ∧
    (on_canvas_click s p rd).measure_start = none := by
  rw [on_canvas_click_measure_end s img p st ppm rd himg hp hmode hstart hcal hppm]
  exact ⟨rfl, rfl⟩

/-- C7 witness: with `pixels_per_mm = 10`, measuring from `(0,0)` to
`(30,40)` (pixel distance `50`) records exactly `5` millimetres. -/
theorem C7_witness :
    (on_canvas_click ⟨some ⟨100, 100⟩, some 10, [], [], true, some ((0:ℤ), (0:ℤ))⟩
        ((30:ℤ), (40:ℤ)) none).measurement_lines = [⟨0, 0, 30, 40, (5:ℝ)⟩] ∧
    (on_canvas_click ⟨some ⟨100, 100⟩, some 10, [], [], true, some ((0:ℤ), (0:ℤ))⟩
        ((30:ℤ), (40:ℤ)) none).measure_start = none := by
  have h := C7_end_measurement_computes_length
    ⟨some ⟨100, 100⟩, some 10, [], [], true, some ((0:ℤ), (0:ℤ))⟩ ⟨100, 100⟩
    ((30:ℤ), (40:ℤ)) ((0:ℤ), (0:ℤ)) 10 none rfl (by decide) rfl rfl rfl (by norm_num)
  refine ⟨?_, h.2⟩
  rw [h.1, pixelDistance_example]
  norm_num

/-- C8: neither recalibration path touches the stored measurements, and the
redrawn labels are exactly the stored millimetre snapshots, so they too are
unchanged by recalibration. -/
theorem C8_stored_length_immutable (s : AppState) (cs : List HoughCircle)
    (rd : Option ℝ) :
    (auto_calibrate s cs).measurement_lines = s.measurement_lines ∧
    (complete_manual_calibration s rd).measurement_lines = s.measurement_lines ∧
    redraw_measurements_labels (auto_calibrate s cs).measurement_lines =
      redraw_measurements_labels s.measurement_lines ∧
    redraw_measurements_labels (complete_manual_calibration s rd).measurement_lines =
      redraw_measurements_labels s.measurement_lines := by
  have h1 := (auto_calibrate_preserves s cs).2.1
  have h2 := (complete_manual_calibration_preserves s rd).2.1
  exact ⟨h1, h2, by rw [h1], by rw [h2]⟩

/-- Running a list of completed measurement gestures in measure mode with a
fixed nonzero calibration appends exactly one measurement per gesture, in
gesture order. -/
theorem run_gestures_spec (gs : List (Point × Point)) :
    ∀ (s : AppState) (img : Img) (v : ℝ),
      s.current_image_cv = some img → s.measure_mode = true →
      s.measure_start = none → s.calibration_px_per_mm = some v → v ≠ 0 →
      (∀ g ∈ gs, inBounds img g.1 ∧ inBounds img g.2) →
      run_gestures s gs =
        { s with measurement_lines :=
            s.measurement_lines ++ gs.map (gestureMeasurement v) } := by
  induction gs with
  | nil =>
      intro s img v h1 h2 h3 h4 h5 h6
      obtain ⟨ici, cal, cp, ml, mo, ms⟩ := s
      simp [run_gestures]
  | cons g gs ih =>
      intro s img v h1 h2 h3 h4 h5 h6
      have hg := h6 g (List.mem_cons_self g gs)
      have hc1 := on_canvas_click_measure_first s img g.1 none h1 hg.1 h2 h3
      obtain ⟨ici, cal, cp, ml, mo, ms⟩ := s
      dsimp only at h1 h2 h3 h4
      subst h1; subst h2; subst h3; subst h4
      dsimp only at hc1
      have hc2 := on_canvas_click_measure_end
        (⟨some img, some v, cp, ml, true, some g.1⟩ : AppState) img g.2 g.1 v none
        rfl hg.2 rfl rfl rfl h5
      have hrun : run_gestures (⟨some img, some v, cp, ml, true, none⟩ : AppState)
          (g :: gs) =
          run_gestures (⟨some img, some v, cp,
            ml ++ [⟨g.1.1, g.1.2, g.2.1, g.2.2, pixelDistance g.1 g.2 / v⟩],
            true, none⟩ : AppState) gs := by
        show run_gestures (run_gesture _ g) gs = _
        rw [run_gesture, hc1, hc2]
      rw [hrun, ih _ img v rfl rfl rfl rfl h5
        (fun g' hg' => h6 g' (List.mem_cons_of_mem g hg'))]
      simp [gestureMeasurement]

/-- C9: starting from an empty ledger, a sequence of completed measurement
gestures on one image yields exactly the corresponding measurements in
creation order — no reordering and no deduplication. -/
theorem C9_ledger_in_creation_order
    (s : AppState) (img : Img) (v : ℝ) (gs : List (Point × Point))
    (himg : s.current_image_cv = some img) (hmode : s.measure_mode = true)
    (hstart : s.measure_start = none) (hcal : s.calibration_px_per_mm = some v)
    (hv : v ≠ 0) (hledger : s.measurement_lines = [])
    (hb : ∀ g ∈ gs, inBounds img g.1 ∧ inBounds img g.2) :
    (run_gestures s gs).measurement_lines = gs.map (gestureMeasurement v) := by
  rw [run_gestures_spec gs s img v himg hmode hstart hcal hv hb]
  rw [show ({ s with measurement_lines :=
      s.measurement_lines ++ gs.map (gestureMeasurement v) } : AppState).measurement_lines
    = s.measurement_lines ++ gs.map (gestureMeasurement v) from rfl, hledger]
  rfl

/-- C9 witness: three gestures, the third a duplicate of the first, give a
three-element ledger in gesture order (no deduplication). -/
theorem C9_witness :
    (run_gestures ⟨some ⟨50, 50⟩, some 10, [], [], true, none⟩
        [(((0:ℤ), (0:ℤ)), ((3:ℤ), (4:ℤ))),
         (((1:ℤ), (1:ℤ)), ((2:ℤ), (2:ℤ))),
         (((0:ℤ), (0:ℤ)), ((3:ℤ), (4:ℤ)))]).measurement_lines =
      [gestureMeasurement 10 (((0:ℤ), (0:ℤ)), ((3:ℤ), (4:ℤ))),
       gestureMeasurement 10 (((1:ℤ), (1:ℤ)), ((2:ℤ), (2:ℤ))),
       gestureMeasurement 10 (((0:ℤ), (0:ℤ)), ((3:ℤ), (4:ℤ)))] :=
  C9_ledger_in_creation_order
    ⟨some ⟨50, 50⟩, some 10, [], [], true, none⟩ ⟨50, 50⟩ 10
    [(((0:ℤ), (0:ℤ)), ((3:ℤ), (4:ℤ))),
     (((1:ℤ), (1:ℤ)), ((2:ℤ), (2:ℤ))),
     (((0:ℤ), (0:ℤ)), ((3:ℤ), (4:ℤ)))]
    rfl rfl rfl rfl (by norm_num) rfl (by decide)

/-- A canvas click preserves the bounds invariant on the ledger and the
pending start: each branch either leaves those fields alone, clears the
pending start, or records points that just passed the bounds test. -/
theorem click_preserves_MeasPointsInBounds (s : AppState) (p : Point) (rd : Option ℝ)
    (h : MeasPointsInBounds s) : MeasPointsInBounds (on_canvas_click s p rd) := by
  rcases himg : s.current_image_cv with _ | img
  · rw [on_canvas_click_no_image s p rd himg]
    exact h
  · by_cases hb : inBounds img p
    · cases hmode : s.measure_mode with
      | false =>
          rw [on_canvas_click_calib_mode s img p rd himg hb hmode]
          by_cases hlen : (s.click_points ++ [p]).length = 2
          · rw [if_pos hlen]
            have hpre := complete_manual_calibration_preserves
              { s with click_points := s.click_points ++ [p] } rd
            exact MeasPointsInBounds_of_fields s _
              (by rw [hpre.1]) (by rw [hpre.2.1]) (by rw [hpre.2.2.1]) h
          · rw [if_neg hlen]
            exact MeasPointsInBounds_of_fields s _ rfl rfl rfl h
      | true =>
          rcases hstart : s.measure_start with _ | st
          · rw [on_canvas_click_measure_first s img p rd himg hb hmode hstart]
            intro img' hi'
            have hii : s.current_image_cv = some img' := hi'
            have himg2 : img = img' := by
              rw [himg] at hii
              exact Option.some.inj hii
            subst himg2
            obtain ⟨h1, h2⟩ := h img hi'
            refine ⟨h1, ?_⟩
            intro q hq
            have hpq : p = q := Option.some.inj hq
            subst hpq
            exact hb
          · rcases hcal : s.calibration_px_per_mm with _ | ppm
            · rw [on_canvas_click_measure_end_uncal s img p st rd himg hb hmode hstart
                (Or.inl hcal)]
              intro img' hi'
              exact ⟨(h img' hi').1, fun q hq => by cases hq⟩
            · by_cases hppm : ppm = 0
              · subst hppm
                rw [on_canvas_click_measure_end_uncal s img p st rd himg hb hmode hstart
                  (Or.inr hcal)]
                intro img' hi'
                exact ⟨(h img' hi').1, fun q hq => by cases hq⟩
              · rw [on_canvas_click_measure_end s img p st ppm rd himg hb hmode hstart
                  hcal hppm]
                intro img' hi'
                have hii : s.current_image_cv = some img' := hi'
                have himg2 : img = img' := by
                  rw [himg] at hii
                  exact Option.some.inj hii
                subst himg2
                obtain ⟨h1, h2⟩ := h img hi'
                constructor
                · intro m hm
                  rcases List.mem_append.mp hm with hm | hm
                  · exact h1 m hm
                  · have hmeq : m = ⟨st.1, st.2, p.1, p.2, pixelDistance st p / ppm⟩ := by
                      simpa using hm
                    subst hmeq
                    exact ⟨h2 st hstart, hb⟩
                · intro q hq
                  cases hq
    · rw [on_canvas_click_out_of_bounds s img p rd himg hb]
      exact h

/-- Every operation of the session preserves the bounds invariant on the
measurement ledger and pending start point. -/
theorem step_preserves_MeasPointsInBounds (s : AppState) (op : Op)
    (h : MeasPointsInBounds s) : MeasPointsInBounds (step s op) := by
  cases op with
  | click p rd => exact click_preserves_MeasPointsInBounds s p rd h
  | selectImage d =>
      rcases d with _ | img
      · intro img' hi'
        exact Option.noConfusion hi'
      · intro img' hi'
        exact ⟨fun m hm => by simp [step, on_image_select, clear_measurements] at hm,
          fun q hq => by cases hq⟩
  | autoCal cs =>
      show MeasPointsInBounds (auto_calibrate s cs)
      rcases auto_calibrate_cases s cs with ⟨c, heq⟩ | heq <;> rw [heq]
      · exact MeasPointsInBounds_of_fields s _ rfl rfl rfl h
      · exact h
  | startManualCalibration => exact MeasPointsInBounds_of_fields s _ rfl rfl rfl h
  | toggleMeasureMode =>
      show MeasPointsInBounds (toggle_measure_mode s)
      unfold toggle_measure_mode
      split
      · intro img' hi'
        exact ⟨(h img' hi').1, fun q hq => by cases hq⟩
      · exact MeasPointsInBounds_of_fields s _ rfl rfl rfl h
  | clearMeasurements =>
      intro img' hi'
      exact ⟨fun m hm => by simp [step, clear_measurements] at hm, fun q hq => by cases hq⟩

/-- C10 counterexample: selecting a new image does not clear the manual
calibration click buffer, so clicking `(500, 500)` on a 600×600 image and
then loading a 100×100 image leaves a buffered point outside the current
image bounds. -/
theorem C10_counterexample :
    (on_image_select
        (on_canvas_click ⟨some ⟨600, 600⟩, none, [], [], false, none⟩
          ((500:ℤ), (500:ℤ)) none)
        (some ⟨100, 100⟩)).click_points = [((500:ℤ), (500:ℤ))] ∧
    (on_image_select
        (on_canvas_click ⟨some ⟨600, 600⟩, none, [], [], false, none⟩
          ((500:ℤ), (500:ℤ)) none)
        (some ⟨100, 100⟩)).current_image_cv = some ⟨100, 100⟩ ∧
    ¬ inBounds ⟨100, 100⟩ ((500:ℤ), (500:ℤ)) := by
  have hclick : on_canvas_click ⟨some ⟨600, 600⟩, none, [], [], false, none⟩
      ((500:ℤ), (500:ℤ)) none =
      ⟨some ⟨600, 600⟩, none, [((500:ℤ), (500:ℤ))], [], false, none⟩ := by
    rw [on_canvas_click_calib_mode _ ⟨600, 600⟩ _ none rfl (by decide) rfl]
    rfl
  rw [hclick]
  exact ⟨rfl, rfl, by decide⟩

/-- C10 (amended): a canvas click whose mapped coordinate falls outside the
current image bounds is ignored entirely (no state change), and every
operation preserves the invariant that all points stored in the measurement
ledger or as the pending start lie within the current image bounds; the
calibration click buffer, however, is not cleared on image change, so a
buffered point (in bounds when clicked) may lie outside a later image's
bounds. -/
theorem C10_amended_bounds_invariant :
    (∀ (s : AppState) (img : Img) (p : Point) (rd : Option ℝ),
      s.current_image_cv = some img → ¬ inBounds img p →
      on_canvas_click s p rd = s) ∧
    (∀ (s : AppState) (op : Op),
      MeasPointsInBounds s → MeasPointsInBounds (step s op)) :=
  ⟨fun s img p rd h1 h2 => on_canvas_click_out_of_bounds s img p rd h1 h2,
   step_preserves_MeasPointsInBounds⟩

theorem C10_amended_witness :
    on_canvas_click ⟨some ⟨10, 10⟩, none, [], [], false, none⟩ ((20:ℤ), (20:ℤ)) none =
      ⟨some ⟨10, 10⟩, none, [], [], false, none⟩ ∧
    MeasPointsInBounds (step ⟨some ⟨10, 10⟩, some 10, [], [], true, none⟩
      (Op.click ((3:ℤ), (4:ℤ)) none)) :=
  ⟨C10_amended_bounds_invariant.1 _ ⟨10, 10⟩ _ none rfl (by decide),
   C10_amended_bounds_invariant.2 _ (Op.click ((3:ℤ), (4:ℤ)) none)
     (fun img hi => ⟨fun m hm => by simp at hm, fun q hq => by cases hq⟩)⟩
